import Mathlib

/-!
Verification development for the Splitwise MCP gateway
(src/splitwise_mcp.py).

Modelling choices:
* Monetary amounts (Python floats in the source) are modelled as exact
  rationals; the spec itself asks for exact decimal arithmetic, and none
  of the properties below depend on binary floating-point artifacts.
* Python's round(x, 2) rounds half to even; `round2` reproduces that.
* A fixed two-decimal formatted string f"{x:.2f}" is represented by its
  integer number of cents (`fmt2c`), so "400.00" is the integer 40000.
* The handler mcp_create_expense (lines 119-144) is modelled up to the
  point where the downstream call would be issued: `Except.ok body` is
  the request body that would be POSTed to /create_expense, and
  `Except.error e` is a local failure raised before any downstream call
  is attempted.  Python's unguarded ZeroDivisionError at line 125 is the
  `LocalError.zeroDivision` constructor.
* call_splitwise (lines 75-82) is modelled as a pure function of the
  single downstream response it consumes; the response's parsed JSON
  payload is carried opaquely as a string.
-/

/-- Round a rational to the nearest integer, ties to even — the rounding
used by Python's built-in round(). -/
def roundHalfEven (q : ℚ) : ℤ :=
  let f : ℤ := ⌊q⌋
  let r : ℚ := q - f
  if r < 1/2 then f
  else if 1/2 < r then f + 1
  else if f % 2 = 0 then f else f + 1

/-- Python round(x, 2): round to two decimal places, ties to even. -/
def round2 (q : ℚ) : ℚ := (roundHalfEven (q * 100) : ℚ) / 100

/-- The two-decimal format f"{x:.2f}", represented by its value in cents. -/
def fmt2c (q : ℚ) : ℤ := roundHalfEven (q * 100)

/-- The ExpenseIntent pydantic model (lines 42-50). -/
structure ExpenseIntent where
  user_id : Int
  amount : ℚ
  currency : String
  description : String
  participants : List Int
  split_type : String
  owed_shares : Option (List ℚ)
deriving DecidableEq

/-- A local failure inside mcp_create_expense: either a raised
HTTPException (status, detail) or Python's ZeroDivisionError from the
unguarded division at line 125. -/
inductive LocalError where
  | httpError (status : Nat) (detail : String)
  | zeroDivision
deriving DecidableEq

/-- One users__idx__{user_id, paid_share, owed_share} triple of the
outbound request body; the two share strings are held as cents. -/
structure ShareEntry where
  user_id : Int
  paid_share : ℤ
  owed_share : ℤ
deriving DecidableEq

/-- The outbound create_expense request body (lines 120-140): cost,
description, currency_code plus the ordered per-participant triples. -/
structure RequestBody where
  cost : ℤ
  description : String
  currency_code : String
  users : List ShareEntry
deriving DecidableEq

/-- mcp_create_expense (lines 119-144), modelled up to the downstream
call: `.ok body` is the request body handed to call_splitwise, `.error`
a local failure raised before any downstream call.  The source's local
variable `share` (line 125) is inlined into the owed_share field. -/
def mcp_create_expense (intent : ExpenseIntent) : Except LocalError RequestBody :=
  if intent.split_type = "equal" then
    if intent.participants.length = 0 then
      Except.error LocalError.zeroDivision
    else
      Except.ok
        { cost := fmt2c intent.amount
          description := intent.description
          currency_code := intent.currency
          users := intent.participants.map fun uid =>
            { user_id := uid
              paid_share := if uid = intent.user_id then fmt2c intent.amount else 0
              owed_share := if uid ≠ intent.user_id then
                fmt2c (round2 (intent.amount / (intent.participants.length : ℚ))) else 0 } }
  else if intent.split_type = "shares" ∨ intent.split_type = "unequal" then
    match intent.owed_shares with
    | none =>
      Except.error (LocalError.httpError 400
        "owed_shares must be provided and match participants length for shares or unequal split_type.")
    | some os =>
      if os.length = 0 ∨ os.length ≠ intent.participants.length then
        Except.error (LocalError.httpError 400
          "owed_shares must be provided and match participants length for shares or unequal split_type.")
      else
        Except.ok
          { cost := fmt2c intent.amount
            description := intent.description
            currency_code := intent.currency
            users := (intent.participants.zip os).map fun p =>
              { user_id := p.1
                paid_share := if p.1 = intent.user_id then fmt2c intent.amount else 0
                owed_share := fmt2c p.2 } }
  else
    Except.error (LocalError.httpError 400
      "Invalid split_type. Use equal, shares, or unequal.")

/-- A response from the downstream Splitwise API: status code, parsed
JSON payload (opaque), and raw body text. -/
structure DownstreamResponse where
  status_code : Nat
  json : String
  text : String
deriving DecidableEq

/-- The HTTPException raised by call_splitwise on a non-success
downstream status (line 81). -/
structure HTTPError where
  status_code : Nat
  detail : String
deriving DecidableEq

/-- call_splitwise (lines 75-82): one request, one response, no retry;
success statuses are exactly 200 and 201, any other status raises an
HTTPException carrying the downstream status and raw body. -/
def call_splitwise (response : DownstreamResponse) : Except HTTPError String :=
  if response.status_code = 200 ∨ response.status_code = 201 then
    Except.ok response.json
  else
    Except.error { status_code := response.status_code, detail := response.text }

/-- The uniform MCPResponse envelope (lines 63-65). -/
structure MCPResponse where
  status : String
  data : String
deriving DecidableEq

/-- The response-handling step shared by every endpoint: wrap the
payload of a successful call_splitwise in the success envelope,
propagate its HTTPException unchanged. -/
def gateway_envelope (response : DownstreamResponse) : Except HTTPError MCPResponse :=
  (call_splitwise response).map fun d => { status := "success", data := d }

/-- Python truthiness of an Optional[int]: None and 0 are falsy. -/
def pyTruthy : Option Int → Bool
  | none => false
  | some n => n != 0

/-- The query params built by mcp_list_expenses (lines 148-153): the
`if group_id: ... elif user_id:` chain under Python truthiness. -/
def mcp_list_expenses_params (user_id group_id : Option Int) : List (String × Int) :=
  if pyTruthy group_id then [("group_id", group_id.getD 0)]
  else if pyTruthy user_id then [("friend_id", user_id.getD 0)]
  else []

/-- A downstream request: HTTP method, path, query params. -/
structure DownstreamRequest where
  method : String
  path : String
  params : List (String × Int)
deriving DecidableEq

/-- The downstream request issued by mcp_get_balance (lines 162-164):
a fixed GET /get_current_user regardless of the user_id path param. -/
def mcp_get_balance_request (user_id : Int) : DownstreamRequest :=
  { method := "GET", path := "/get_current_user", params := [] }

/-- mcp_get_balance (lines 162-165): passthrough of the downstream
response through the shared envelope; user_id is never consulted. -/
def mcp_get_balance (user_id : Int) (response : DownstreamResponse) :
    Except HTTPError MCPResponse :=
  gateway_envelope response

/-- The equal-split example intent from the spec: total=400,
participants=[1,2], payer=1. -/
def exEqual : ExpenseIntent :=
  { user_id := 1, amount := 400, currency := "INR", description := "Dinner"
    participants := [1, 2], split_type := "equal", owed_shares := none }

/-- The unequal-split example intent from the spec: total=400,
participants=[1,2], payer=1, owed_shares=[135,265]. -/
def exUnequal : ExpenseIntent :=
  { user_id := 1, amount := 400, currency := "INR", description := "Dinner"
    participants := [1, 2], split_type := "unequal", owed_shares := some [135, 265] }

/-- A shares-split intent whose owed_shares sum (401) differs from the
total (400). -/
def exShares : ExpenseIntent :=
  { user_id := 1, amount := 400, currency := "INR", description := "Dinner"
    participants := [1, 2], split_type := "shares", owed_shares := some [135, 266] }

/-- Characterization of the "equal" branch (lines 124-131). -/
lemma create_equal_eq (intent : ExpenseIntent)
    (hstrat : intent.split_type = "equal")
    (hne : intent.participants ≠ []) :
    mcp_create_expense intent = Except.ok
      { cost := fmt2c intent.amount
        description := intent.description
        currency_code := intent.currency
        users := intent.participants.map fun uid =>
          { user_id := uid
            paid_share := if uid = intent.user_id then fmt2c intent.amount else 0
            owed_share := if uid ≠ intent.user_id then
              fmt2c (round2 (intent.amount / (intent.participants.length : ℚ))) else 0 } } := by
  have hlen : intent.participants.length ≠ 0 := by
    simpa [List.length_eq_zero] using hne
  unfold mcp_create_expense
  rw [if_pos hstrat, if_neg hlen]

/-- Characterization of the unguarded division on the "equal" branch
(line 125) at an empty participant list. -/
lemma create_equal_empty (intent : ExpenseIntent)
    (hstrat : intent.split_type = "equal")
    (hempty : intent.participants = []) :
    mcp_create_expense intent = Except.error LocalError.zeroDivision := by
  unfold mcp_create_expense
  rw [if_pos hstrat, if_pos (by simp [hempty])]

/-- Characterization of the "shares"/"unequal" branch (lines 132-140)
when owed_shares is present with the right (non-zero) length. -/
lemma create_shares_eq (intent : ExpenseIntent) (os : List ℚ)
    (hstrat : intent.split_type = "shares" ∨ intent.split_type = "unequal")
    (howed : intent.owed_shares = some os)
    (hosne : os ≠ [])
    (hoslen : os.length = intent.participants.length) :
    mcp_create_expense intent = Except.ok
      { cost := fmt2c intent.amount
        description := intent.description
        currency_code := intent.currency
        users := (intent.participants.zip os).map fun p =>
          { user_id := p.1
            paid_share := if p.1 = intent.user_id then fmt2c intent.amount else 0
            owed_share := fmt2c p.2 } } := by
  have hne : intent.split_type ≠ "equal" := by
    rcases hstrat with h | h <;> rw [h] <;> decide
  have h0 : ¬(os.length = 0 ∨ os.length ≠ intent.participants.length) := by
    push_neg
    exact ⟨by simpa [List.length_eq_zero] using hosne, hoslen⟩
  unfold mcp_create_expense
  rw [if_neg hne, if_pos hstrat, howed]
  dsimp only
  rw [if_neg h0]

/-- Characterization of the validation failure on the
"shares"/"unequal" branch (lines 133-134). -/
lemma create_shares_missing (intent : ExpenseIntent)
    (hstrat : intent.split_type = "shares" ∨ intent.split_type = "unequal")
    (hbad : intent.owed_shares = none ∨
      ∃ os, intent.owed_shares = some os ∧ os.length ≠ intent.participants.length) :
    mcp_create_expense intent =
      Except.error (LocalError.httpError 400
        "owed_shares must be provided and match participants length for shares or unequal split_type.") := by
  have hne : intent.split_type ≠ "equal" := by
    rcases hstrat with h | h <;> rw [h] <;> decide
  unfold mcp_create_expense
  rw [if_neg hne, if_pos hstrat]
  rcases hbad with hnone | ⟨os, hos, hlen⟩
  · rw [hnone]
  · rw [hos]
    dsimp only
    rw [if_pos (Or.inr hlen)]

/-- Characterization of the rejection of an empty owed_shares list on
the "shares"/"unequal" branch: Python's `not intent.owed_shares` is
true for the empty list as well as for None (line 133). -/
lemma create_shares_empty (intent : ExpenseIntent)
    (hstrat : intent.split_type = "shares" ∨ intent.split_type = "unequal")
    (howed : intent.owed_shares = some []) :
    mcp_create_expense intent =
      Except.error (LocalError.httpError 400
        "owed_shares must be provided and match participants length for shares or unequal split_type.") := by
  have hne : intent.split_type ≠ "equal" := by
    rcases hstrat with h | h <;> rw [h] <;> decide
  unfold mcp_create_expense
  rw [if_neg hne, if_pos hstrat, howed]
  dsimp only
  rw [if_pos (Or.inl List.length_nil)]

/-- Characterization of the invalid-strategy failure (lines 141-142). -/
lemma create_invalid (intent : ExpenseIntent)
    (h1 : intent.split_type ≠ "equal")
    (h2 : intent.split_type ≠ "shares")
    (h3 : intent.split_type ≠ "unequal") :
    mcp_create_expense intent =
      Except.error (LocalError.httpError 400
        "Invalid split_type. Use equal, shares, or unequal.") := by
  unfold mcp_create_expense
  rw [if_neg h1, if_neg (by simp [h2, h3])]

/-- Inversion: a successful allocation came from either the "equal"
branch or the "shares"/"unequal" branch with validated owed_shares. -/
lemma create_ok_inv (intent : ExpenseIntent) (body : RequestBody)
    (hok : mcp_create_expense intent = Except.ok body) :
    (intent.split_type = "equal" ∧ intent.participants ≠ [] ∧
      body.users = intent.participants.map fun uid =>
        { user_id := uid
          paid_share := if uid = intent.user_id then fmt2c intent.amount else 0
          owed_share := if uid ≠ intent.user_id then
            fmt2c (round2 (intent.amount / (intent.participants.length : ℚ))) else 0 }) ∨
    ((intent.split_type = "shares" ∨ intent.split_type = "unequal") ∧
      ∃ os, intent.owed_shares = some os ∧ os ≠ [] ∧
        os.length = intent.participants.length ∧
        body.users = (intent.participants.zip os).map fun p =>
          { user_id := p.1
            paid_share := if p.1 = intent.user_id then fmt2c intent.amount else 0
            owed_share := fmt2c p.2 }) := by
  by_cases h1 : intent.split_type = "equal"
  · by_cases hl : intent.participants = []
    · rw [create_equal_empty intent h1 hl] at hok
      exact Except.noConfusion hok
    · rw [create_equal_eq intent h1 hl] at hok
      exact Or.inl ⟨h1, hl, by rw [← Except.ok.inj hok]⟩
  · by_cases h2 : intent.split_type = "shares" ∨ intent.split_type = "unequal"
    · cases howed : intent.owed_shares with
      | none =>
        rw [create_shares_missing intent h2 (Or.inl howed)] at hok
        exact Except.noConfusion hok
      | some os =>
        by_cases hlen : os.length = intent.participants.length
        · by_cases hosne : os = []
          · subst hosne
            rw [create_shares_empty intent h2 howed] at hok
            exact Except.noConfusion hok
          · rw [create_shares_eq intent os h2 howed hosne hlen] at hok
            exact Or.inr ⟨h2, os, rfl, hosne, hlen, by rw [← Except.ok.inj hok]⟩
        · rw [create_shares_missing intent h2 (Or.inr ⟨os, howed, hlen⟩)] at hok
          exact Except.noConfusion hok
    · rw [create_invalid intent h1 (fun h => h2 (Or.inl h)) (fun h => h2 (Or.inr h))] at hok
      exact Except.noConfusion hok

/-- Sum of a map that is constant on the list's members. -/
lemma sum_map_const_int {α : Type} (t : List α) (s : ℤ) (f : α → ℤ)
    (h : ∀ x ∈ t, f x = s) : (t.map f).sum = (t.length : ℤ) * s := by
  induction t with
  | nil => simp
  | cons a t ih =>
    simp only [List.map_cons, List.sum_cons, List.length_cons]
    rw [h a (List.mem_cons_self a t), ih (fun x hx => h x (List.mem_cons_of_mem a hx))]
    push_cast
    ring

/-- On a duplicate-free list containing p, summing T at p and 0
elsewhere gives T. -/
lemma sum_paid_of_nodup (l : List Int) (p : Int) (T : ℤ)
    (hnd : l.Nodup) (hmem : p ∈ l) :
    (l.map fun u => if u = p then T else 0).sum = T := by
  induction l with
  | nil => cases hmem
  | cons a t ih =>
    rcases List.mem_cons.mp hmem with rfl | hmt
    · have hnt : p ∉ t := (List.nodup_cons.mp hnd).1
      have hz : (t.map fun u => if u = p then T else 0).sum = (t.length : ℤ) * 0 :=
        sum_map_const_int t 0 _ (fun x hx => by
          have hxp : x ≠ p := fun h => hnt (h ▸ hx)
          simp [hxp])
      simp only [List.map_cons, List.sum_cons]
      rw [if_pos trivial, hz, mul_zero, add_zero]
    · have hap : a ≠ p := fun h =>
        (List.nodup_cons.mp hnd).1 (by rw [h]; exact hmt)
      simp only [List.map_cons, List.sum_cons, if_neg hap]
      rw [ih (List.nodup_cons.mp hnd).2 hmt, zero_add]

/-- On a duplicate-free list containing p, summing s away from p and 0
at p gives (length - 1) * s. -/
lemma sum_owed_of_nodup (l : List Int) (p : Int) (s : ℤ)
    (hnd : l.Nodup) (hmem : p ∈ l) :
    (l.map fun u => if u ≠ p then s else 0).sum = ((l.length : ℤ) - 1) * s := by
  induction l with
  | nil => cases hmem
  | cons a t ih =>
    rcases List.mem_cons.mp hmem with rfl | hmt
    · have hnt : p ∉ t := (List.nodup_cons.mp hnd).1
      have hz : (t.map fun u => if u ≠ p then s else 0).sum = (t.length : ℤ) * s :=
        sum_map_const_int t s _ (fun x hx => by
          have hxp : x ≠ p := fun h => hnt (h ▸ hx)
          simp [hxp])
      simp only [List.map_cons, List.sum_cons, List.length_cons]
      rw [if_neg (fun h => h rfl), hz]
      push_cast
      ring
    · have hap : a ≠ p := fun h =>
        (List.nodup_cons.mp hnd).1 (by rw [h]; exact hmt)
      simp only [List.map_cons, List.sum_cons, List.length_cons]
      rw [if_pos hap, ih (List.nodup_cons.mp hnd).2 hmt]
      push_cast
      ring

/-- Evaluation of the equal-split example intent. -/
lemma exEqual_eval : mcp_create_expense exEqual = Except.ok
    { cost := 40000, description := "Dinner", currency_code := "INR"
      users := [⟨1, 40000, 0⟩, ⟨2, 0, 20000⟩] } := by
  rw [create_equal_eq exEqual rfl (by decide)]
  simp only [exEqual, List.map_cons, List.map_nil]
  norm_num [fmt2c, round2, roundHalfEven]

/-- Evaluation of the unequal-split example intent. -/
lemma exUnequal_eval : mcp_create_expense exUnequal = Except.ok
    { cost := 40000, description := "Dinner", currency_code := "INR"
      users := [⟨1, 40000, 13500⟩, ⟨2, 0, 26500⟩] } := by
  rw [create_shares_eq exUnequal [135, 265] (Or.inr rfl) rfl (by decide) rfl]
  simp only [exUnequal, List.zip_cons_cons, List.zip_nil_right, List.map_cons, List.map_nil]
  norm_num [fmt2c, roundHalfEven]

/-- Projecting paid_share out of the equal-branch entries. -/
lemma equal_map_paid (l : List Int) (payer : Int) (T s : ℤ) :
    ((l.map fun uid =>
      ({ user_id := uid, paid_share := if uid = payer then T else 0,
         owed_share := if uid ≠ payer then s else 0 } : ShareEntry)).map fun e => e.paid_share)
      = l.map fun u => if u = payer then T else 0 := by
  rw [List.map_map]
  rfl

/-- Projecting owed_share out of the equal-branch entries. -/
lemma equal_map_owed (l : List Int) (payer : Int) (T s : ℤ) :
    ((l.map fun uid =>
      ({ user_id := uid, paid_share := if uid = payer then T else 0,
         owed_share := if uid ≠ payer then s else 0 } : ShareEntry)).map fun e => e.owed_share)
      = l.map fun u => if u ≠ payer then s else 0 := by
  rw [List.map_map]
  rfl

/-- Projecting paid_share out of the shares-branch entries. -/
lemma zip_map_paid (l : List Int) (os : List ℚ) (payer : Int) (T : ℤ)
    (hle : l.length ≤ os.length) :
    (((l.zip os).map fun p =>
      ({ user_id := p.1, paid_share := if p.1 = payer then T else 0,
         owed_share := fmt2c p.2 } : ShareEntry)).map fun e => e.paid_share)
      = l.map fun u => if u = payer then T else 0 := by
  rw [List.map_map]
  have h1 : ((fun e : ShareEntry => e.paid_share) ∘ fun p : Int × ℚ =>
      ({ user_id := p.1, paid_share := if p.1 = payer then T else 0,
         owed_share := fmt2c p.2 } : ShareEntry))
      = ((fun u : Int => if u = payer then T else 0) ∘ Prod.fst) := rfl
  rw [h1, ← List.map_map, List.map_fst_zip _ _ hle]

/-- Projecting owed_share out of the shares-branch entries. -/
lemma zip_map_owed (l : List Int) (os : List ℚ) (payer : Int) (T : ℤ)
    (hle : os.length ≤ l.length) :
    (((l.zip os).map fun p =>
      ({ user_id := p.1, paid_share := if p.1 = payer then T else 0,
         owed_share := fmt2c p.2 } : ShareEntry)).map fun e => e.owed_share)
      = os.map fmt2c := by
  rw [List.map_map]
  have h1 : ((fun e : ShareEntry => e.owed_share) ∘ fun p : Int × ℚ =>
      ({ user_id := p.1, paid_share := if p.1 = payer then T else 0,
         owed_share := fmt2c p.2 } : ShareEntry))
      = (fmt2c ∘ Prod.snd) := rfl
  rw [h1, ← List.map_map, List.map_snd_zip _ _ hle]

/-- C1: under split strategy "equal" with a non-empty, duplicate-free
participant list containing the payer, the allocation yields one
(user_id, paid, owed) triple per participant in input order: the payer
gets paid = the total formatted to two decimals and owed = 0.00, every
non-payer gets paid = 0.00 and owed = round(total / count, 2) formatted
to two decimals. -/
theorem C1_equal_split (intent : ExpenseIntent)
    (hstrat : intent.split_type = "equal")
    (hne : intent.participants ≠ [])
    (hnodup : intent.participants.Nodup)
    (hmem : intent.user_id ∈ intent.participants) :
    mcp_create_expense intent = Except.ok
      { cost := fmt2c intent.amount
        description := intent.description
        currency_code := intent.currency
        users := intent.participants.map fun uid =>
          { user_id := uid
            paid_share := if uid = intent.user_id then fmt2c intent.amount else 0
            owed_share := if uid = intent.user_id then 0
              else fmt2c (round2 (intent.amount / (intent.participants.length : ℚ))) } } := by
  rw [create_equal_eq intent hstrat hne]
  simp [ite_not]

/-- C1 witness: the spec's own example, total=400, participants=[1,2],
payer=1 yields [(1, 400.00, 0.00), (2, 0.00, 200.00)]. -/
theorem C1_equal_split_witness :
    mcp_create_expense exEqual = Except.ok
      { cost := 40000, description := "Dinner", currency_code := "INR"
        users := [⟨1, 40000, 0⟩, ⟨2, 0, 20000⟩] } := by
  rw [C1_equal_split exEqual rfl (by decide) (by decide) (by decide)]
  simp only [exEqual, List.map_cons, List.map_nil]
  norm_num [fmt2c, round2, roundHalfEven]

/-- C2 counterexample: for the valid intent total=400,
participants=[1,2], payer=1, strategy=equal, the owed amounts in the
allocation sum to 200.00 while the total is 400.00, so the owed half of
the claimed invariant fails on the code. -/
theorem C2_owed_sum_counterexample :
    (mcp_create_expense exEqual).map (fun b => (b.users.map fun e => e.owed_share).sum)
      = Except.ok 20000 ∧
    fmt2c exEqual.amount = 40000 ∧ (20000 : ℤ) ≠ 40000 := by
  refine ⟨?_, ?_, by decide⟩
  · rw [exEqual_eval]
    simp [Except.map]
  · norm_num [exEqual, fmt2c, roundHalfEven]

/-- C2 amended: for every valid intent the paid amounts do sum to the
total; the owed amounts instead sum to (count - 1) times the rounded
equal share under "equal" (the payer's owed share is forced to zero and
never redistributed), and to the sum of the caller-supplied shares
under "shares"/"unequal". -/
theorem C2_sum_invariant_amended (intent : ExpenseIntent) (body : RequestBody)
    (hpos : 0 < intent.amount)
    (hnodup : intent.participants.Nodup)
    (hmem : intent.user_id ∈ intent.participants)
    (hok : mcp_create_expense intent = Except.ok body) :
    (body.users.map fun e => e.paid_share).sum = fmt2c intent.amount ∧
    (intent.split_type = "equal" →
      (body.users.map fun e => e.owed_share).sum =
        ((intent.participants.length : ℤ) - 1) *
          fmt2c (round2 (intent.amount / (intent.participants.length : ℚ)))) ∧
    (∀ os, intent.owed_shares = some os → intent.split_type ≠ "equal" →
      (body.users.map fun e => e.owed_share).sum = (os.map fmt2c).sum) := by
  rcases create_ok_inv intent body hok with
    ⟨hstrat, hne, husers⟩ | ⟨hstrat, os, howed, hosne, hoslen, husers⟩
  · refine ⟨?_, fun _ => ?_, fun os howed hneq => absurd hstrat hneq⟩
    · rw [husers, equal_map_paid, sum_paid_of_nodup _ _ _ hnodup hmem]
    · rw [husers, equal_map_owed, sum_owed_of_nodup _ _ _ hnodup hmem]
  · have hneq : intent.split_type ≠ "equal" := by
      rcases hstrat with h | h <;> rw [h] <;> decide
    refine ⟨?_, fun h => absurd h hneq, fun os' howed' _ => ?_⟩
    · rw [husers, zip_map_paid _ _ _ _ (le_of_eq hoslen.symm),
        sum_paid_of_nodup _ _ _ hnodup hmem]
    · rw [howed] at howed'
      obtain rfl := Option.some.inj howed'
      rw [husers, zip_map_owed _ _ _ _ (le_of_eq hoslen)]

/-- C2 witness: the amended sums at the equal-split example. -/
theorem C2_sum_invariant_amended_witness :
    (([⟨1, 40000, 0⟩, ⟨2, 0, 20000⟩] : List ShareEntry).map fun e => e.paid_share).sum
        = fmt2c exEqual.amount ∧
    (([⟨1, 40000, 0⟩, ⟨2, 0, 20000⟩] : List ShareEntry).map fun e => e.owed_share).sum
        = ((exEqual.participants.length : ℤ) - 1) *
            fmt2c (round2 (exEqual.amount / (exEqual.participants.length : ℚ))) := by
  have h := C2_sum_invariant_amended exEqual
    { cost := 40000, description := "Dinner", currency_code := "INR"
      users := [⟨1, 40000, 0⟩, ⟨2, 0, 20000⟩] }
    (by norm_num [exEqual]) (by decide) (by decide) exEqual_eval
  exact ⟨h.1, h.2.1 rfl⟩

/-- C3 counterexample: under "unequal" the payer's owed amount is taken
verbatim from owed_shares rather than forced to zero: at the spec's own
example (total=400, participants=[1,2], payer=1, owed_shares=[135,265])
the payer's owed amount is 135.00, not 0. -/
theorem C3_payer_owed_counterexample :
    (mcp_create_expense exUnequal).map (fun b => b.users.map fun e => e.owed_share)
      = Except.ok [13500, 26500] ∧ ((13500 : ℤ) ≠ 0) := by
  refine ⟨?_, by decide⟩
  rw [exUnequal_eval]
  simp [Except.map]

/-- C3 amended: under every accepted strategy the payer's paid amount
is the full total and every non-payer's paid amount is 0; the payer's
owed amount is forced to 0 only under "equal", while under
"shares"/"unequal" every participant's owed amount — the payer's
included — is the caller-supplied share at the matching index. -/
theorem C3_paid_logic_amended (intent : ExpenseIntent) (body : RequestBody)
    (hok : mcp_create_expense intent = Except.ok body) :
    (∀ e ∈ body.users, e.paid_share =
      if e.user_id = intent.user_id then fmt2c intent.amount else 0) ∧
    (intent.split_type = "equal" →
      ∀ e ∈ body.users, e.user_id = intent.user_id → e.owed_share = 0) ∧
    (∀ os, intent.owed_shares = some os → intent.split_type ≠ "equal" →
      (body.users.map fun e => e.owed_share) = os.map fmt2c) := by
  rcases create_ok_inv intent body hok with
    ⟨hstrat, hne, husers⟩ | ⟨hstrat, os, howed, hosne, hoslen, husers⟩
  · refine ⟨?_, fun _ e he hepayer => ?_, fun os howed hneq => absurd hstrat hneq⟩
    · intro e he
      rw [husers] at he
      rcases List.mem_map.mp he with ⟨uid, _, rfl⟩
      rfl
    · rw [husers] at he
      rcases List.mem_map.mp he with ⟨uid, _, rfl⟩
      have huid : uid = intent.user_id := hepayer
      simp [huid]
  · have hneq : intent.split_type ≠ "equal" := by
      rcases hstrat with h | h <;> rw [h] <;> decide
    refine ⟨?_, fun h => absurd h hneq, fun os' howed' _ => ?_⟩
    · intro e he
      rw [husers] at he
      rcases List.mem_map.mp he with ⟨p, _, rfl⟩
      rfl
    · rw [howed] at howed'
      obtain rfl := Option.some.inj howed'
      rw [husers, zip_map_owed _ _ _ _ (le_of_eq hoslen)]

/-- C3 witness: the amended paid-amount rule at the unequal example,
where the payer's entry carries paid = the full total 400.00. -/
theorem C3_paid_logic_amended_witness :
    (⟨1, 40000, 13500⟩ : ShareEntry).paid_share = fmt2c exUnequal.amount ∧
    fmt2c exUnequal.amount = 40000 :=
  ⟨(C3_paid_logic_amended exUnequal _ exUnequal_eval).1 ⟨1, 40000, 13500⟩ (by decide),
   by norm_num [exUnequal, fmt2c, roundHalfEven]⟩

/-- C4: under "shares"/"unequal" with an owed_shares list matching the
(non-empty) participant list in length, the allocation succeeds and its
owed amounts are exactly the caller-supplied shares in order, each
formatted to two decimals — with no validation that they sum to the
total. -/
theorem C4_owed_passthrough (intent : ExpenseIntent) (os : List ℚ)
    (hstrat : intent.split_type = "shares" ∨ intent.split_type = "unequal")
    (howed : intent.owed_shares = some os)
    (hlen : os.length = intent.participants.length)
    (hne : intent.participants ≠ []) :
    (mcp_create_expense intent).map (fun b => b.users.map fun e => e.owed_share)
      = Except.ok (os.map fmt2c) := by
  have hosne : os ≠ [] := by
    intro h
    subst h
    exact hne (by simpa [List.length_eq_zero] using hlen.symm)
  rw [create_shares_eq intent os hstrat howed hosne hlen]
  dsimp only [Except.map]
  rw [zip_map_owed _ _ _ _ (le_of_eq hlen)]

/-- C4 witness: owed_shares=[135,266] sums to 401 ≠ 400 yet is accepted
and passed through uncorrected as [135.00, 266.00]. -/
theorem C4_owed_passthrough_witness :
    (mcp_create_expense exShares).map (fun b => b.users.map fun e => e.owed_share)
      = Except.ok (([135, 266] : List ℚ).map fmt2c) ∧
    ([135, 266] : List ℚ).map fmt2c = [13500, 26600] :=
  ⟨C4_owed_passthrough exShares [135, 266] (Or.inl rfl) rfl rfl (by decide), by
    simp only [List.map_cons, List.map_nil]
    norm_num [fmt2c, roundHalfEven]⟩

/-- C5: under "shares"/"unequal", a missing owed_shares or one whose
length differs from the participant list makes create_expense fail with
an HTTP 400 validation error before any downstream call is attempted
(the result is a local error, never a request body). -/
theorem C5_missing_owed_shares (intent : ExpenseIntent)
    (hstrat : intent.split_type = "shares" ∨ intent.split_type = "unequal")
    (hbad : intent.owed_shares = none ∨
      ∃ os, intent.owed_shares = some os ∧ os.length ≠ intent.participants.length) :
    mcp_create_expense intent =
      Except.error (LocalError.httpError 400
        "owed_shares must be provided and match participants length for shares or unequal split_type.") :=
  create_shares_missing intent hstrat hbad

/-- C5 witness: strategy "shares" with owed_shares missing fails with
the 400 validation error. -/
theorem C5_missing_owed_shares_witness :
    mcp_create_expense
      { user_id := 1, amount := 400, currency := "INR", description := "Dinner"
        participants := [1, 2], split_type := "shares", owed_shares := none } =
      Except.error (LocalError.httpError 400
        "owed_shares must be provided and match participants length for shares or unequal split_type.") :=
  C5_missing_owed_shares _ (Or.inl rfl) (Or.inl rfl)

/-- C6: any strategy other than "equal", "shares", "unequal" makes
create_expense fail with an HTTP 400 validation error before any
downstream call is attempted. -/
theorem C6_invalid_strategy (intent : ExpenseIntent)
    (h1 : intent.split_type ≠ "equal")
    (h2 : intent.split_type ≠ "shares")
    (h3 : intent.split_type ≠ "unequal") :
    mcp_create_expense intent =
      Except.error (LocalError.httpError 400
        "Invalid split_type. Use equal, shares, or unequal.") :=
  create_invalid intent h1 h2 h3

/-- C6 witness: strategy "percent" fails with the 400 validation
error. -/
theorem C6_invalid_strategy_witness :
    mcp_create_expense
      { user_id := 1, amount := 400, currency := "INR", description := "Dinner"
        participants := [1, 2], split_type := "percent", owed_shares := none } =
      Except.error (LocalError.httpError 400
        "Invalid split_type. Use equal, shares, or unequal.") :=
  C6_invalid_strategy _ (by decide) (by decide) (by decide)

/-- C7: a downstream status in {200, 201} yields the success envelope
wrapping the downstream payload; any other status propagates as a
failure carrying exactly that status code and the raw response body,
unchanged — the model consumes a single response, so no retry occurs. -/
theorem C7_status_envelope (response : DownstreamResponse) :
    ((response.status_code = 200 ∨ response.status_code = 201) →
      gateway_envelope response =
        Except.ok { status := "success", data := response.json }) ∧
    (¬(response.status_code = 200 ∨ response.status_code = 201) →
      gateway_envelope response =
        Except.error { status_code := response.status_code, detail := response.text }) := by
  constructor
  · intro h
    unfold gateway_envelope call_splitwise
    rw [if_pos h]
    rfl
  · intro h
    unfold gateway_envelope call_splitwise
    rw [if_neg h]
    rfl

/-- C7 witness: a downstream 404 with body "not found" propagates as a
404 failure carrying that body. -/
theorem C7_status_envelope_witness :
    gateway_envelope { status_code := 404, json := "", text := "not found" } =
      Except.error { status_code := 404, detail := "not found" } :=
  (C7_status_envelope _).2 (by decide)

/-- C8 counterexample: with group_id = 0 supplied alongside user_id = 5
the query carries the friend_id filter, not the group_id filter —
Python truthiness treats a supplied 0 as absent, so a supplied group
identifier does not always take precedence as claimed. -/
theorem C8_group_filter_counterexample :
    mcp_list_expenses_params (some 5) (some 0) = [("friend_id", 5)] ∧
    ([("friend_id", 5)] : List (String × Int)) ≠ [("group_id", 0)] := by
  constructor
  · rfl
  · decide

/-- C8 amended: a supplied non-zero group identifier takes precedence
(the query carries only the group_id filter); with no group identifier
or a zero one, a supplied non-zero user identifier goes under
friend_id; otherwise the query carries no filter. -/
theorem C8_filter_precedence_amended (user_id group_id : Option Int) :
    (∀ g, group_id = some g → g ≠ 0 →
      mcp_list_expenses_params user_id group_id = [("group_id", g)]) ∧
    ((group_id = none ∨ group_id = some 0) →
      ∀ u, user_id = some u → u ≠ 0 →
        mcp_list_expenses_params user_id group_id = [("friend_id", u)]) ∧
    ((group_id = none ∨ group_id = some 0) →
      (user_id = none ∨ user_id = some 0) →
      mcp_list_expenses_params user_id group_id = []) := by
  refine ⟨?_, ?_, ?_⟩
  · rintro g rfl hg0
    simp [mcp_list_expenses_params, pyTruthy, bne_iff_ne, hg0]
  · rintro (rfl | rfl) u rfl hu0 <;>
      simp [mcp_list_expenses_params, pyTruthy, bne_iff_ne, hu0]
  · rintro (rfl | rfl) (rfl | rfl) <;>
      simp [mcp_list_expenses_params, pyTruthy]

/-- C8 witness: a non-zero group identifier wins even when a user
identifier is also supplied. -/
theorem C8_filter_precedence_witness :
    mcp_list_expenses_params (some 5) (some 7) = [("group_id", 7)] :=
  (C8_filter_precedence_amended (some 5) (some 7)).1 7 rfl (by decide)

/-- C9: mcp_get_balance is independent of its user_id path parameter:
any two calls issue the identical fixed GET /get_current_user request
with no params, and equal downstream responses yield equal results. -/
theorem C9_get_balance_independent (u₁ u₂ : Int) :
    mcp_get_balance_request u₁ = mcp_get_balance_request u₂ ∧
    mcp_get_balance_request u₁ =
      { method := "GET", path := "/get_current_user", params := [] } ∧
    ∀ response, mcp_get_balance u₁ response = mcp_get_balance u₂ response :=
  ⟨rfl, rfl, fun _ => rfl⟩

/-- C10: with strategy "equal" and an empty participant list the
division total / len(participants) is reached with no guard: the
result is the ZeroDivisionError outcome, which is not an HTTP
validation error — the division-by-zero branch is reachable at the
public interface. -/
theorem C10_empty_participants_division (intent : ExpenseIntent)
    (hstrat : intent.split_type = "equal")
    (hempty : intent.participants = []) :
    mcp_create_expense intent = Except.error LocalError.zeroDivision ∧
    ∀ status detail, LocalError.zeroDivision ≠ LocalError.httpError status detail :=
  ⟨create_equal_empty intent hstrat hempty, fun _ _ h => LocalError.noConfusion h⟩

/-- C10 witness: the concrete empty-participants equal-split intent
reaches the division by zero. -/
theorem C10_empty_participants_division_witness :
    mcp_create_expense
      { user_id := 1, amount := 400, currency := "INR", description := "Dinner"
        participants := [], split_type := "equal", owed_shares := none } =
      Except.error LocalError.zeroDivision :=
  (C10_empty_participants_division _ rfl rfl).1
